import Mathlib

/-!
Shallow embedding of the FastLoop template renderer (vanilla class in
`javascript-fastloop.js` and the jQuery plugin `$.fn.loopHtml`), together
with proofs about its placeholder substitution, batch scheduling, node
recycling and error policy.
-/

namespace FastLoopModel

/-- The opening brace character `\x7b`. -/
def obr : Char := '\x7b'

/-- The closing brace character `\x7d`. -/
def cbr : Char := '\x7d'

/-- Subset of JavaScript values that can appear as item properties. -/
inductive JSVal
  | vStr (s : String)
  | vNum (n : Int)
  | vBool (b : Bool)
  | vNull
  | vUndefined
deriving DecidableEq, Repr

/-- A data item is a key-value mapping (absent key models `undefined`). -/
abbrev Item := List (String × JSVal)

/-- JavaScript `String(v)` coercion on the modelled values. -/
def jsToString : JSVal → String
  | JSVal.vStr s => s
  | JSVal.vNum n => n.repr
  | JSVal.vBool b => if b then "true" else "false"
  | JSVal.vNull => "null"
  | JSVal.vUndefined => "undefined"

/-- JavaScript nullishness (`v ?? d` takes `d` exactly on these). -/
def isNullish : JSVal → Bool
  | JSVal.vNull => true
  | JSVal.vUndefined => true
  | _ => false

/-- JavaScript falsiness (`v || d` takes `d` exactly on these). -/
def isFalsy : JSVal → Bool
  | JSVal.vNull => true
  | JSVal.vUndefined => true
  | JSVal.vBool b => !b
  | JSVal.vNum n => n = 0
  | JSVal.vStr s => s = ""

/-- The regex character class `\w` of the pattern `/\x7b\x7b(\w+)\x7d\x7d/g`:
ASCII letters, digits and underscore. -/
def isWordChar (c : Char) : Bool := c.isAlpha || c.isDigit || c = '_'

/-- Scanner state of the left-to-right pass of
`template.replace(/\x7b\x7b(\w+)\x7d\x7d/g, ...)` (lines 105-108 of the class,
lines 83-86 of the plugin).  The pending (not yet committed) characters are:
`normal` none, `sawOpen` one `\x7b`, `inWord w` the two braces plus `w`,
`sawClose w` the two braces, `w`, and one `\x7d`. -/
inductive Mode
  | normal
  | sawOpen
  | inWord (w : List Char)
  | sawClose (w : List Char)
deriving DecidableEq, Repr

/-- Characters held pending in a scanner state. -/
def Mode.pend : Mode → List Char
  | Mode.normal => []
  | Mode.sawOpen => [obr]
  | Mode.inWord w => obr :: obr :: w
  | Mode.sawClose w => obr :: obr :: w ++ [cbr]

/-- One step of the regex scan.  On a mismatch the JavaScript regex engine
retries from one position after the failed match start; since `\w` contains
no brace, the retried characters flush to the output except for a trailing
brace that can still open a later match. -/
def step (repl : List Char → String) (acc : List Char × Mode) (c : Char) :
    List Char × Mode :=
  match acc with
  | (out, Mode.normal) =>
    if c = obr then (out, Mode.sawOpen) else (out ++ [c], Mode.normal)
  | (out, Mode.sawOpen) =>
    if c = obr then (out, Mode.inWord []) else (out ++ [obr, c], Mode.normal)
  | (out, Mode.inWord w) =>
    if isWordChar c then (out, Mode.inWord (w ++ [c]))
    else if c = cbr ∧ w ≠ [] then (out, Mode.sawClose w)
    else if w = [] then
      if c = obr then (out ++ [obr], Mode.inWord [])
      else (out ++ [obr, obr, c], Mode.normal)
    else
      if c = obr then (out ++ obr :: obr :: w, Mode.sawOpen)
      else (out ++ obr :: obr :: w ++ [c], Mode.normal)
  | (out, Mode.sawClose w) =>
    if c = cbr then (out ++ (repl w).data, Mode.normal)
    else if c = obr then (out ++ obr :: obr :: w ++ [cbr], Mode.sawOpen)
    else (out ++ obr :: obr :: w ++ [cbr, c], Mode.normal)

/-- The single left-to-right substitution pass over a character list:
every non-overlapping occurrence of `\x7b\x7b(\w+)\x7d\x7d` is replaced by
`repl` of the captured word; replaced text is never re-scanned. -/
def substChars (repl : List Char → String) (l : List Char) : List Char :=
  (l.foldl (step repl) ([], Mode.normal)).1
    ++ (l.foldl (step repl) ([], Mode.normal)).2.pend

/-- Replacement callback of the vanilla class (line 105-108):
`key === 'index'` yields the 1-based position, otherwise `item[key] ?? ''`
coerced to a string by `String.replace`. -/
def replVanilla (item : Item) (i : Nat) (w : List Char) : String :=
  if String.mk w = "index" then Nat.repr (i + 1)
  else
    match List.lookup (String.mk w) item with
    | none => ""
    | some v => if isNullish v then "" else jsToString v

/-- Replacement callback of the jQuery plugin (line 83-86):
`key === 'index'` yields the 1-based position, otherwise `item[key] || ''`. -/
def replJQuery (item : Item) (i : Nat) (w : List Char) : String :=
  if String.mk w = "index" then Nat.repr (i + 1)
  else
    match List.lookup (String.mk w) item with
    | none => ""
    | some v => if isFalsy v then "" else jsToString v

/-- Default substituter of the vanilla class. -/
def substVanilla (tmpl : String) (item : Item) (i : Nat) : String :=
  String.mk (substChars (replVanilla item i) tmpl.data)

/-- Default substituter of the jQuery plugin. -/
def substJQuery (tmpl : String) (item : Item) (i : Nat) : String :=
  String.mk (substChars (replJQuery item i) tmpl.data)

/-- JavaScript `String.prototype.trim`: strip leading and trailing
whitespace (modelled over the common whitespace characters). -/
def jsTrim (s : String) : String :=
  String.mk
    (((s.data.dropWhile Char.isWhitespace).reverse.dropWhile
      Char.isWhitespace).reverse)

/-! ## DOM and render model

A DOM element is identified by a natural number; `content` maps ids to the
element's current inner markup (latest binding wins on lookup).  The
container's element children and the off-tree fragment are ordered lists of
ids.  `Node.appendChild` moves a node that already has a parent, so
appending an existing container child to the fragment removes it from the
container.
-/

/-- Mutable document state seen by a FastLoop instance: the container's
element children and the markup content of every known element. -/
structure RenderState where
  container : List Nat
  content : List (Nat × String)
  nextId : Nat
deriving DecidableEq, Repr

/-- Ephemeral per-render session: document state, the fragment being built
and the `existingNodes` snapshot taken at render start. -/
structure Sess where
  st : RenderState
  fragment : List Nat
  existing : List Nat
deriving DecidableEq, Repr

/-- Result of a render call.  `noop`: early return on an empty template.
`done`: all batches completed and the fragment was swapped in.
`caughtErr`: an error thrown in the first (synchronous) batch was caught by
the `try`/`catch` around `processBatch(0)` and logged.  `uncaughtErr`: an
error thrown in a later batch runs inside a `requestAnimationFrame`
callback, outside the `try`, and escapes to the host (also used when the
host grants no further animation frame, so a `batchSize` of `0` never
finishes). -/
inductive Outcome
  | noop (st : RenderState)
  | done (st : RenderState)
  | caughtErr (st : RenderState) (msg : String)
  | uncaughtErr (st : RenderState) (msg : String)
deriving DecidableEq, Repr

/-- Document state carried by an outcome. -/
def Outcome.state : Outcome → RenderState
  | Outcome.noop st => st
  | Outcome.done st => st
  | Outcome.caughtErr st _ => st
  | Outcome.uncaughtErr st _ => st

/-- Whether a render ran to completion and swapped the fragment in. -/
def Outcome.isDone : Outcome → Bool
  | Outcome.done _ => true
  | _ => false

/-- Template source: a literal string, a markup element reference (read via
`innerHTML`), or any other value (rejected). -/
inductive TmplSrc
  | str (s : String)
  | elem (innerHtml : String)
  | other
deriving DecidableEq, Repr

/-- Configuration fields used by the render core.  `renderCallback` may
throw (`Except.error`), modelling a throwing caller-supplied callback. -/
structure Config where
  renderCallback : Option (String → Item → Nat → Except String String)
  validateData : Bool
  batchSize : Nat
  reuseNodes : Bool

/-- Full construction-time configuration.  `data = none` models a value
that is not an array. -/
structure FullConfig extends Config where
  data : Option (List Item)
  template : TmplSrc

/-- Per-item markup production (lines 96-109): a configured callback fully
replaces the default substituter, which is passed in as `subst` (the two
surfaces differ only in it). -/
def genHtml (cfg : Config) (subst : String → Item → Nat → String)
    (tmpl : String) (item : Item) (i : Nat) : Except String String :=
  match cfg.renderCallback with
  | some f => f tmpl item i
  | none => Except.ok (subst tmpl item i)

/-- Node materialization for data position `i` (lines 111-123).  Reuse path:
overwrite `existingNodes[i]`'s content in place and move it into the
fragment (`appendChild` detaches it from the container).  Allocation path:
parse the trimmed markup off-tree (`parse` models `temp.innerHTML = h;
temp.firstElementChild`, returning the first element's markup or `none`);
`fragment.appendChild(null)` throws a `TypeError`. -/
def materialize (cfg : Config) (parse : String → Option String) (i : Nat)
    (html : String) (sess : Sess) : Except String Sess :=
  if cfg.reuseNodes ∧ i < sess.existing.length then
    Except.ok ⟨⟨sess.st.container.erase (sess.existing.getD i 0),
        (sess.existing.getD i 0, jsTrim html) :: sess.st.content,
        sess.st.nextId⟩, sess.fragment ++ [sess.existing.getD i 0],
        sess.existing⟩
  else
    match parse (jsTrim html) with
    | some c =>
      Except.ok ⟨⟨sess.st.container, (sess.st.nextId, c) :: sess.st.content,
          sess.st.nextId + 1⟩, sess.fragment ++ [sess.st.nextId],
          sess.existing⟩
    | none => Except.error "TypeError: appendChild parameter is not a Node"

/-- The `for` loop of one batch (lines 91-124) over the listed data indices.
On a throw, the session at the point of the throw is returned with the
error: DOM mutations already performed persist. -/
def renderItems (cfg : Config) (subst : String → Item → Nat → String)
    (parse : String → Option String) (tmpl : String) (data : List Item) :
    List Nat → Sess → Sess × Option String
  | [], sess => (sess, none)
  | i :: rest, sess =>
    match genHtml cfg subst tmpl (data.getD i []) i with
    | Except.error e => (sess, some e)
    | Except.ok html =>
      match materialize cfg parse i html sess with
      | Except.error e => (sess, some e)
      | Except.ok sess2 => renderItems cfg subst parse tmpl data rest sess2

/-- Render completion (lines 130-135): trailing captured nodes are removed
(`existingNodes.slice(data.length)` each `.remove()`), the container is
cleared and the fragment is appended — the container's children become
exactly the fragment's nodes. -/
def finishRender (sess : Sess) : RenderState :=
  { sess.st with container := sess.fragment }

/-- The recursive batch driver `processBatch` (lines 88-137).  `fuel` is the
number of scheduling ticks the host still grants; `isFirst` records whether
we are in the synchronous first call (whose exceptions the surrounding
`try`/`catch` catches) or in a `requestAnimationFrame` continuation (whose
exceptions escape). -/
def processBatch (cfg : Config) (subst : String → Item → Nat → String)
    (parse : String → Option String) (tmpl : String) (data : List Item) :
    Nat → Nat → Bool → Sess → Outcome
  | 0, _, _, sess => Outcome.uncaughtErr sess.st "no further animation frame"
  | fuel + 1, start, isFirst, sess =>
    match renderItems cfg subst parse tmpl data
        (List.range' start (min (start + cfg.batchSize) data.length - start))
        sess with
    | (sess2, some e) =>
      if isFirst then Outcome.caughtErr sess2.st e
      else Outcome.uncaughtErr sess2.st e
    | (sess2, none) =>
      if min (start + cfg.batchSize) data.length < data.length then
        processBatch cfg subst parse tmpl data fuel
          (min (start + cfg.batchSize) data.length) false sess2
      else Outcome.done (finishRender sess2)

/-- The method `render(data)` (lines 71-145): early return on an empty
cached template, snapshot of the container's children when recycling is
enabled (otherwise `existingNodes` stays `[]`), then the batch driver from
index `0`. -/
def render (cfg : Config) (subst : String → Item → Nat → String)
    (parse : String → Option String) (tmpl : String) (st : RenderState)
    (data : List Item) (fuel : Nat) : Outcome :=
  if tmpl = "" then Outcome.noop st
  else
    processBatch cfg subst parse tmpl data fuel 0 true
      ⟨st, [], if cfg.reuseNodes then st.container else []⟩

/-- The method `updateData(newData)` (lines 151-154) stores the new data
and calls `render` again; its effect on the document is that of the
render. -/
def updateData (cfg : Config) (subst : String → Item → Nat → String)
    (parse : String → Option String) (tmpl : String) (st : RenderState)
    (newData : List Item) (fuel : Nat) : Outcome :=
  render cfg subst parse tmpl st newData fuel

/-- Behaviour of `render` applied to a non-array value when validation is
disabled:
`data.length` is `undefined`, so `endIndex` is `NaN`, the loop body never
runs, `NaN < undefined` is false, `existingNodes.slice(NaN)` removes every
captured node, and the container is cleared and receives the empty
fragment. -/
def renderNonArray (tmpl : String) (st : RenderState) : Outcome :=
  if tmpl = "" then Outcome.noop st
  else Outcome.done { st with container := [] }

/-- Template extraction (class lines 54-60, plugin lines 35-42): an element
reference yields its inner markup, a string is used unchanged, anything
else is `InvalidTemplate`. -/
def extractTemplate : TmplSrc → Except String String
  | TmplSrc.elem inner => Except.ok inner
  | TmplSrc.str s => Except.ok s
  | TmplSrc.other => Except.error "Invalid template format!"

/-- Construction-time `init` of the vanilla class (lines 47-64): data
validation throws (`Except.error` escapes to the constructor's caller),
template extraction throws, then the initial render runs. -/
def FastLoop.init (cfg : FullConfig) (parse : String → Option String)
    (st : RenderState) (fuel : Nat) : Except String Outcome :=
  if cfg.validateData && cfg.data.isNone then
    Except.error "Data must be an array!"
  else
    match extractTemplate cfg.template with
    | Except.error e => Except.error e
    | Except.ok tmpl =>
      match cfg.data with
      | some l =>
        Except.ok (render cfg.toConfig substVanilla parse tmpl st l fuel)
      | none => Except.ok (renderNonArray tmpl st)

/-- Result of the jQuery plugin entry: either a `console.error` message with
an unchanged document and an early return, or a started render. -/
inductive PluginResult
  | skipped (st : RenderState) (loggedError : String)
  | rendered (outcome : Outcome)
deriving DecidableEq, Repr

/-- The jQuery plugin entry per matched element (plugin lines 22-125):
invalid data or an invalid template are logged via `console.error` and the
element is left untouched — no exception is raised; otherwise the initial
render runs with the plugin's substituter. -/
def loopHtml (cfg : FullConfig) (parse : String → Option String)
    (st : RenderState) (fuel : Nat) : PluginResult :=
  if cfg.validateData && cfg.data.isNone then
    PluginResult.skipped st "Data must be an array!"
  else
    match extractTemplate cfg.template with
    | Except.error e => PluginResult.skipped st e
    | Except.ok tmpl =>
      PluginResult.rendered (match cfg.data with
        | some l => render cfg.toConfig substJQuery parse tmpl st l fuel
        | none => renderNonArray tmpl st)

/-! ## String-level and counting projections of the batch driver -/

/-- The ordered markup strings produced by the batch driver (lines 88-140)
when the per-index producer is `f`: chunks of `batchSize` from `start`,
the last chunk possibly shorter. -/
def processBatchHtml (f : Nat → String) (len b : Nat) :
    Nat → Nat → List String
  | 0, _ => []
  | fuel + 1, start =>
    if min (start + b) len < len then
      (List.range' start (min (start + b) len - start)).map f
        ++ processBatchHtml f len b fuel (min (start + b) len)
    else (List.range' start (min (start + b) len - start)).map f

/-- The single naive left-to-right pass of the spec (§4.4, §8): produce the
markup for every index `0, …, len - 1` in order, with no chunking. -/
def naiveSinglePass (f : Nat → String) (len : Nat) : List String :=
  (List.range len).map f

/-- Number of `processBatch` invocations a render performs (lines 88-140):
one per chunk, plus the single empty invocation when no data remains. -/
def processBatchCount (len b : Nat) : Nat → Nat → Nat
  | 0, _ => 0
  | fuel + 1, start =>
    if min (start + b) len < len then
      1 + processBatchCount len b fuel (min (start + b) len)
    else 1

/-! ## Concrete instances used by witnesses and counterexamples -/

/-- Content map obtained from `c` after the reuse path of the render core
has processed data positions `p, …, p + n - 1`: each step records the
trimmed substituted markup for `existingNodes[p]` (latest binding wins on
lookup, as `innerHTML` assignment overwrites). -/
def contSeg (subst : String → Item → Nat → String) (tmpl : String)
    (data : List Item) (existing : List Nat) :
    Nat → Nat → List (Nat × String) → List (Nat × String)
  | _, 0, c => c
  | p, n + 1, c =>
    contSeg subst tmpl data existing (p + 1) n
      ((existing.getD p 0, jsTrim (subst tmpl (data.getD p []) p)) :: c)

/-- Concrete stand-in for the host HTML parser used in witnesses: a trimmed
markup string has an element root exactly when it starts with `<`, and the
new element's markup is the string itself. -/
def parseSimple (s : String) : Option String :=
  match s.data with
  | [] => none
  | c :: _ => if c = '<' then some s else none

/-- Configuration whose caller-supplied render callback succeeds on the
first item and throws on the second, with node recycling enabled. -/
def cfgC6cx : Config :=
  ⟨some (fun _ _ i => if i = 0 then Except.ok "<p>x</p>"
    else Except.error "boom"), true, 1000, true⟩

/-- A container holding two previously rendered nodes. -/
def stC6 : RenderState := ⟨[5, 7], [(5, "old5"), (7, "old7")], 10⟩

/-- Configuration whose caller-supplied render callback always throws, with
node recycling disabled. -/
def cfgC6w : Config := ⟨some (fun _ _ _ => Except.error "boom"), true, 1000, false⟩

/-- A container holding one previously rendered node. -/
def stC6w : RenderState := ⟨[3], [(3, "z")], 4⟩

/-- Default-substituter configuration with node recycling disabled. -/
def cfgC7 : Config := ⟨none, true, 1000, false⟩

/-- A container holding one node, before a render of malformed markup. -/
def stC7 : RenderState := ⟨[1], [(1, "z")], 9⟩

/-- Default-substituter configuration, `batchSize` 2, recycling enabled. -/
def cfgC8 : Config := ⟨none, true, 2, true⟩

/-- A container holding three previously rendered nodes. -/
def stC8 : RenderState := ⟨[10, 20, 30], [(10, "a"), (20, "b"), (30, "c")], 50⟩

/-- Two data items, shorter than the three existing nodes of `stC8`. -/
def dataC8 : List Item := [[("name", JSVal.vStr "X")], [("name", JSVal.vStr "Y")]]

/-- Construction-time configuration with `validateData` enabled and a
non-array `data` value. -/
def cfgC5 : FullConfig :=
  ⟨⟨none, true, 1000, true⟩, none, TmplSrc.str "<div></div>"⟩

/-- A container holding one node that must survive a skipped render. -/
def stC5 : RenderState := ⟨[2], [(2, "keep")], 6⟩

/-- Construction-time configuration whose template is the empty string. -/
def cfgC10 : FullConfig :=
  ⟨⟨none, true, 1000, true⟩, some [[("name", JSVal.vStr "A")]], TmplSrc.str ""⟩

/-- A template with an index placeholder and a name placeholder. -/
def tmplC1 : String := "\x7b\x7bindex\x7d\x7d:\x7b\x7bname\x7d\x7d"

/-- Three data items for the batching witness. -/
def dataC1 : List Item :=
  [[("name", JSVal.vStr "a")], [("name", JSVal.vStr "b")],
   [("name", JSVal.vStr "c")]]

/-- An item whose value itself contains placeholder syntax, next to a key
that syntax would name. -/
def itemC2 : Item :=
  [("name", JSVal.vStr "\x7b\x7ba\x7d\x7d"), ("a", JSVal.vStr "!")]

/-- An item carrying its own entry named `index`. -/
def itemC3 : Item := [("index", JSVal.vStr "999")]

/-- An item none of whose values is falsy without being nullish. -/
def itemC4 : Item := [("a", JSVal.vStr "x"), ("b", JSVal.vNull)]

/-! ## Lemmas about the substitution scanner -/

/-- One scanner step only ever appends to the committed output. -/
theorem step_shift (repl : List Char → String) (out : List Char) (m : Mode)
    (c : Char) :
    step repl (out, m) c
      = (out ++ (step repl ([], m) c).1, (step repl ([], m) c).2) := by
  cases m <;> simp only [step] <;> split_ifs <;> simp

/-- The whole scan only ever appends to the committed output. -/
theorem foldl_step_shift (repl : List Char → String) (l : List Char) :
    ∀ (out : List Char) (m : Mode),
    List.foldl (step repl) (out, m) l
      = (out ++ (List.foldl (step repl) ([], m) l).1,
         (List.foldl (step repl) ([], m) l).2) := by
  induction l with
  | nil => intro out m; simp
  | cons c l ih =>
    intro out m
    simp only [List.foldl_cons]
    rcases h : step repl ([], m) c with ⟨a1, m1⟩
    rw [step_shift repl out m c, h, ih (out ++ a1) m1, ih a1 m1]
    simp

/-- Characters other than an opening brace pass through the scanner. -/
theorem foldl_bracefree (repl : List Char → String) :
    ∀ (pre out : List Char), (∀ c ∈ pre, c ≠ obr) →
    List.foldl (step repl) (out, Mode.normal) pre = (out ++ pre, Mode.normal)
  | [], out, _ => by simp
  | c :: pre, out, h => by
    have hc : ¬ c = obr := h c (List.mem_cons_self c pre)
    simp only [List.foldl_cons, step, if_neg hc]
    rw [foldl_bracefree repl pre (out ++ [c])
      (fun d hd => h d (List.mem_cons_of_mem c hd))]
    simp

/-- Word characters accumulate in the scanner's capture buffer. -/
theorem foldl_word (repl : List Char → String) :
    ∀ (w w0 out : List Char), (∀ c ∈ w, isWordChar c = true) →
    List.foldl (step repl) (out, Mode.inWord w0) w = (out, Mode.inWord (w0 ++ w))
  | [], w0, out, _ => by simp
  | c :: w, w0, out, h => by
    have hc : isWordChar c = true := h c (List.mem_cons_self c w)
    simp only [List.foldl_cons, step, if_pos hc]
    rw [foldl_word repl w (w0 ++ [c]) out
      (fun d hd => h d (List.mem_cons_of_mem c hd))]
    simp

/-- Scanning a complete placeholder commits its replacement and continues
after it. -/
theorem foldl_placeholder (repl : List Char → String) (w rest out : List Char)
    (hw : w ≠ []) (hword : ∀ c ∈ w, isWordChar c = true) :
    List.foldl (step repl) (out, Mode.normal)
        (obr :: obr :: (w ++ cbr :: cbr :: rest))
      = List.foldl (step repl) (out ++ (repl w).data, Mode.normal) rest := by
  have h1 : step repl (out, Mode.normal) obr = (out, Mode.sawOpen) := by
    simp [step]
  have h2 : step repl (out, Mode.sawOpen) obr = (out, Mode.inWord []) := by
    simp [step]
  have hwc : isWordChar cbr = false := by decide
  have h3 : step repl (out, Mode.inWord w) cbr = (out, Mode.sawClose w) := by
    simp [step, hwc, hw]
  have h4 : step repl (out, Mode.sawClose w) cbr
      = (out ++ (repl w).data, Mode.normal) := by
    simp [step]
  simp only [List.foldl_cons, h1, h2]
  rw [List.foldl_append, foldl_word repl w [] out hword]
  simp only [List.nil_append, List.foldl_cons, h3, h4]

/-- Substitution of a placeholder occurrence whose preceding text holds no
opening brace: the replacement is inserted verbatim and the scan continues
on the remaining text only — replaced text is never re-scanned. -/
theorem substChars_split (repl : List Char → String) (pre w post : List Char)
    (hpre : ∀ c ∈ pre, c ≠ obr) (hw : w ≠ [])
    (hword : ∀ c ∈ w, isWordChar c = true) :
    substChars repl (pre ++ obr :: obr :: (w ++ cbr :: cbr :: post))
      = pre ++ (repl w).data ++ substChars repl post := by
  unfold substChars
  rw [List.foldl_append, foldl_bracefree repl pre [] hpre]
  simp only [List.nil_append]
  rw [foldl_placeholder repl w post pre hw hword,
    foldl_step_shift repl post (pre ++ (repl w).data) Mode.normal]
  simp

/-- The scanner step depends on the replacement function only through its
value at the captured word. -/
theorem step_congr {r1 r2 : List Char → String} (h : ∀ w, r1 w = r2 w)
    (acc : List Char × Mode) (c : Char) : step r1 acc c = step r2 acc c := by
  rcases acc with ⟨out, m⟩
  cases m <;> simp [step, h]

/-- Pointwise equal replacement functions give equal substitutions. -/
theorem substChars_congr {r1 r2 : List Char → String}
    (h : ∀ w, r1 w = r2 w) (l : List Char) :
    substChars r1 l = substChars r2 l := by
  have key : ∀ acc, List.foldl (step r1) acc l = List.foldl (step r2) acc l := by
    induction l with
    | nil => intro acc; rfl
    | cons c l ih => intro acc; simp only [List.foldl_cons, step_congr h, ih]
  simp [substChars, key]

/-- A successful association-list lookup exhibits a member pair. -/
theorem mem_of_lookup {l : Item} {k : String} {v : JSVal}
    (h : List.lookup k l = some v) : (k, v) ∈ l := by
  rcases List.lookup_eq_some_iff.mp h with ⟨l1, l2, rfl, -⟩
  simp

/-! ## Lemmas about the batch scheduler -/

/-- With a positive batch size and enough animation frames, the chunked
produce loop emits the markup for the indices `start, …, len - 1` in
order. -/
theorem processBatchHtml_spec (f : Nat → String) (len b : Nat) (hb : 1 ≤ b) :
    ∀ (fuel start : Nat), len - start < fuel →
    processBatchHtml f len b fuel start
      = (List.range' start (len - start)).map f := by
  intro fuel
  induction fuel with
  | zero => intro start h; omega
  | succ fuel ih =>
    intro start h
    simp only [processBatchHtml]
    by_cases hlt : min (start + b) len < len
    · have hmin : min (start + b) len = start + b := by omega
      rw [if_pos hlt, hmin, ih (start + b) (by omega)]
      have hsub : start + b - start = b := by omega
      rw [hsub, ← List.map_append, List.range'_append_1]
      have : len - (start + b) + b = len - start := by omega
      rw [this]
    · have hmin : min (start + b) len = len := by omega
      rw [if_neg hlt, hmin]

/-- With a positive batch size and enough animation frames, the number of
chunk invocations covering `[start, len)` with `start < len` is the ceiling
of `(len - start) / b`. -/
theorem processBatchCount_spec (len b : Nat) (hb : 1 ≤ b) :
    ∀ (fuel start : Nat), len - start < fuel → start < len →
    processBatchCount len b fuel start = (len - start + b - 1) / b := by
  intro fuel
  induction fuel with
  | zero => intro start h _; omega
  | succ fuel ih =>
    intro start h hs
    simp only [processBatchCount]
    by_cases hlt : min (start + b) len < len
    · have hmin : min (start + b) len = start + b := by omega
      rw [if_pos hlt, hmin, ih (start + b) (by omega) (by omega)]
      have he : len - start + b - 1 = (len - (start + b) + b - 1) + b := by
        omega
      rw [he, Nat.add_div_right _ (by omega : 0 < b)]
      omega
    · rw [if_neg hlt]
      have h1 : 1 ≤ len - start := by omega
      have h2 : len - start ≤ b := by omega
      exact (Nat.div_eq_of_lt_le (by omega) (by omega)).symm

/-! ## Lemmas about the DOM-level render core -/

/-- A batch run in an animation-frame continuation (not the synchronous
first call) never produces a caught error: its exceptions escape. -/
theorem processBatch_not_first_ne_caught (cfg : Config)
    (subst : String → Item → Nat → String) (parse : String → Option String)
    (tmpl : String) (data : List Item) :
    ∀ (fuel start : Nat) (sess : Sess) (st : RenderState) (m : String),
    processBatch cfg subst parse tmpl data fuel start false sess
      ≠ Outcome.caughtErr st m := by
  intro fuel
  induction fuel with
  | zero => intro start sess st m h; simp [processBatch] at h
  | succ fuel ih =>
    intro start sess st m h
    simp only [processBatch] at h
    split at h
    · simp at h
    · split at h
      · exact ih _ _ _ _ h
      · exact Outcome.noConfusion h

/-- With node recycling disabled, the per-item loop never touches the
container's children or the content of any pre-existing node, and fresh
node ids only grow. -/
theorem renderItems_no_reuse (cfg : Config)
    (subst : String → Item → Nat → String) (parse : String → Option String)
    (tmpl : String) (data : List Item) (hre : cfg.reuseNodes = false) :
    ∀ (l : List Nat) (sess : Sess),
    (renderItems cfg subst parse tmpl data l sess).1.st.container
        = sess.st.container
    ∧ sess.st.nextId ≤ (renderItems cfg subst parse tmpl data l sess).1.st.nextId
    ∧ ∀ n, n < sess.st.nextId →
        List.lookup n (renderItems cfg subst parse tmpl data l sess).1.st.content
          = List.lookup n sess.st.content := by
  intro l
  induction l with
  | nil => intro sess; exact ⟨rfl, Nat.le_refl _, fun n _ => rfl⟩
  | cons i l ih =>
    intro sess
    simp only [renderItems]
    rcases hg : genHtml cfg subst tmpl (data.getD i []) i with e | html
    · simp only [hg]
      simp
    · simp only [hg, materialize, hre, Bool.false_eq_true, false_and,
        if_false]
      rcases hp : parse (jsTrim html) with _ | c
      · simp only [hp]
        simp
      · simp only [hp]
        rcases ih ⟨⟨sess.st.container, (sess.st.nextId, c) :: sess.st.content,
            sess.st.nextId + 1⟩, sess.fragment ++ [sess.st.nextId],
            sess.existing⟩ with ⟨h1, h2, h3⟩
        dsimp only at h1 h2 h3
        refine ⟨h1, by omega, fun n hn => ?_⟩
        rw [h3 n (by omega)]
        have hne : (n == sess.st.nextId) = false :=
          beq_eq_false_iff_ne.mpr (by omega)
        simp [List.lookup_cons, hne]

/-- Content recordings compose: processing `n` positions and then `m` more
equals processing `n + m` positions. -/
theorem contSeg_add (subst : String → Item → Nat → String) (tmpl : String)
    (data : List Item) (existing : List Nat) :
    ∀ (n p m : Nat) (c : List (Nat × String)),
    contSeg subst tmpl data existing (p + n) m
        (contSeg subst tmpl data existing p n c)
      = contSeg subst tmpl data existing p (n + m) c := by
  intro n
  induction n with
  | zero => intro p m c; simp [contSeg]
  | succ n ih =>
    intro p m c
    simp only [contSeg]
    have e1 : p + (n + 1) = (p + 1) + n := by omega
    have e2 : n + 1 + m = n + (m + 1) := by omega
    rw [e1, ih (p + 1) m _]
    have e3 : n + m = (n + m) := rfl
    have e4 : contSeg subst tmpl data existing (p + 1) (n + m)
        ((existing.getD p 0, jsTrim (subst tmpl (data.getD p []) p)) :: c)
        = contSeg subst tmpl data existing p ((n + m) + 1) c := rfl
    rw [e4]
    congr 1
    omega

/-- Distinct positions of a duplicate-free list hold distinct values. -/
theorem nodup_getD_ne {l : List Nat} (h : l.Nodup) {i j : Nat}
    (hi : i < l.length) (hj : j < l.length) (hij : i ≠ j) :
    l.getD i 0 ≠ l.getD j 0 := by
  simp only [List.getD_eq_getElem?_getD, List.getElem?_eq_getElem hi,
    List.getElem?_eq_getElem hj, Option.getD_some]
  intro he
  exact hij (h.getElem_inj_iff.mp he)

/-- A key recorded for none of the processed positions looks up through the
recorded segment unchanged. -/
theorem contSeg_lookup_out (subst : String → Item → Nat → String)
    (tmpl : String) (data : List Item) (existing : List Nat) :
    ∀ (n p : Nat) (c : List (Nat × String)) (k : Nat),
    (∀ j, p ≤ j → j < p + n → existing.getD j 0 ≠ k) →
    List.lookup k (contSeg subst tmpl data existing p n c)
      = List.lookup k c := by
  intro n
  induction n with
  | zero => intro p c k _; rfl
  | succ n ih =>
    intro p c k h
    simp only [contSeg]
    rw [ih (p + 1) _ k (fun j hj1 hj2 => h j (by omega) (by omega))]
    have hpk : existing.getD p 0 ≠ k := h p (Nat.le_refl p) (by omega)
    have hb : (k == existing.getD p 0) = false :=
      beq_eq_false_iff_ne.mpr (fun he => hpk he.symm)
    rw [List.lookup_cons, hb]

/-- A processed position's node id looks up to its recorded trimmed
markup. -/
theorem contSeg_lookup_hit (subst : String → Item → Nat → String)
    (tmpl : String) (data : List Item) (existing : List Nat)
    (hnd : existing.Nodup) :
    ∀ (n p : Nat) (c : List (Nat × String)) (i : Nat),
    p + n ≤ existing.length → p ≤ i → i < p + n →
    List.lookup (existing.getD i 0) (contSeg subst tmpl data existing p n c)
      = some (jsTrim (subst tmpl (data.getD i []) i)) := by
  intro n
  induction n with
  | zero => intro p c i h1 h2 h3; omega
  | succ n ih =>
    intro p c i h1 h2 h3
    simp only [contSeg]
    by_cases hip : i = p
    · subst hip
      rw [contSeg_lookup_out subst tmpl data existing n (i + 1) _
        (existing.getD i 0)
        (fun j hj1 hj2 => nodup_getD_ne hnd (by omega) (by omega) (by omega))]
      simp
    · exact ih (p + 1) _ i (by omega) (by omega) (by omega)

/-- With node recycling enabled and no custom callback, processing the index
range `[p, p + n)` from the cursor-`p` session shape moves the next `n`
existing nodes into the fragment, records their new markup, and raises no
error. -/
theorem renderItems_reuse (cfg : Config)
    (subst : String → Item → Nat → String) (parse : String → Option String)
    (tmpl : String) (data : List Item) (existing : List Nat) (nid : Nat)
    (hre : cfg.reuseNodes = true) (hcb : cfg.renderCallback = none) :
    ∀ (n p : Nat) (c : List (Nat × String)),
    p + n ≤ data.length → data.length ≤ existing.length →
    renderItems cfg subst parse tmpl data (List.range' p n)
      ⟨⟨existing.drop p, c, nid⟩, existing.take p, existing⟩
    = (⟨⟨existing.drop (p + n),
          contSeg subst tmpl data existing p n c, nid⟩,
        existing.take (p + n), existing⟩, none) := by
  intro n
  induction n with
  | zero => intro p c h1 h2; simp [renderItems, contSeg]
  | succ n ih =>
    intro p c h1 h2
    have hp : p < existing.length := by omega
    rw [List.range'_succ]
    simp only [renderItems, genHtml, hcb]
    simp only [materialize]
    rw [if_pos ?side]
    case side => exact ⟨hre, by simpa using hp⟩
    have hgd : existing.getD p 0 = existing[p] := by
      simp [List.getD_eq_getElem?_getD, List.getElem?_eq_getElem hp]
    have hdrop : existing.drop p = existing.getD p 0 :: existing.drop (p + 1) := by
      rw [List.drop_eq_getElem_cons hp, hgd]
    have htake : existing.take p ++ [existing.getD p 0] = existing.take (p + 1) := by
      rw [List.take_succ, List.getElem?_eq_getElem hp, hgd]
      simp
    dsimp only
    rw [hdrop, List.erase_cons_head, htake,
      ih (p + 1) _ (by omega) h2]
    have e1 : p + 1 + n = p + (n + 1) := by omega
    rw [e1]
    rfl

/-- With node recycling enabled, no custom callback, a positive batch size
and enough animation frames, the batch driver started at any cursor
completes and swaps in exactly the recycled nodes. -/
theorem processBatch_reuse (cfg : Config)
    (subst : String → Item → Nat → String) (parse : String → Option String)
    (tmpl : String) (data : List Item) (existing : List Nat) (nid : Nat)
    (hre : cfg.reuseNodes = true) (hcb : cfg.renderCallback = none)
    (hb : 1 ≤ cfg.batchSize) (hlen : data.length ≤ existing.length) :
    ∀ (fuel start : Nat) (c : List (Nat × String)) (isF : Bool),
    start ≤ data.length → data.length - start < fuel →
    processBatch cfg subst parse tmpl data fuel start isF
      ⟨⟨existing.drop start, c, nid⟩, existing.take start, existing⟩
    = Outcome.done ⟨existing.take data.length,
        contSeg subst tmpl data existing start (data.length - start) c,
        nid⟩ := by
  intro fuel
  induction fuel with
  | zero => intro start c isF h1 h2; omega
  | succ fuel ih =>
    intro start c isF h1 h2
    simp only [processBatch]
    set E := min (start + cfg.batchSize) data.length with hE
    have hE1 : start ≤ E := by omega
    have hE2 : E ≤ data.length := by omega
    rw [renderItems_reuse cfg subst parse tmpl data existing nid hre hcb
      (E - start) start c (by omega) hlen]
    have e1 : start + (E - start) = E := by omega
    rw [e1]
    dsimp only
    by_cases hlt : E < data.length
    · rw [if_pos hlt]
      have hstep : start + 1 ≤ E := by omega
      rw [ih E _ false (by omega) (by omega)]
      have e2 := contSeg_add subst tmpl data existing
        (E - start) start (data.length - E) c
      rw [e1] at e2
      rw [e2]
      have e3 : E - start + (data.length - E) = data.length - start := by
        omega
      rw [e3]
    · rw [if_neg hlt]
      have hEl : E = data.length := by omega
      rw [hEl]
      rfl

/-! ## Claim theorems -/

/-- C1: for every data sequence and every `batchSize ≥ 1`, the batched
processing (chunks of size `batchSize`, last chunk possibly shorter) yields
exactly the same ordered sequence of produced markup strings as a single
naive left-to-right pass over the whole data array — the rendered result is
independent of `batchSize`. -/
theorem claim_C1_batching_refines_naive (tmpl : String) (data : List Item)
    (b : Nat) (hb : 1 ≤ b) :
    processBatchHtml (fun i => substVanilla tmpl (data.getD i []) i)
        data.length b (data.length + 1) 0
      = naiveSinglePass (fun i => substVanilla tmpl (data.getD i []) i)
        data.length := by
  rw [processBatchHtml_spec _ _ _ hb (data.length + 1) 0 (by omega)]
  simp [naiveSinglePass, List.range_eq_range']

/-- Witness for C1: `batchSize = 2` over three items produces the naive
pass's markup sequence. -/
theorem claim_C1_witness :
    1 ≤ 2
    ∧ processBatchHtml (fun i => substVanilla tmplC1 (dataC1.getD i []) i)
        dataC1.length 2 (dataC1.length + 1) 0
      = naiveSinglePass (fun i => substVanilla tmplC1 (dataC1.getD i []) i)
        dataC1.length
    ∧ naiveSinglePass (fun i => substVanilla tmplC1 (dataC1.getD i []) i)
        dataC1.length = ["1:a", "2:b", "3:c"] :=
  ⟨by decide, claim_C1_batching_refines_naive tmplC1 dataC1 2 (by decide),
   by decide⟩

/-- C2 counterexample: in the jQuery plugin's substituter (part_000 line
85, `item[key] || ''`) the key `v` is present with the non-nullish value
`0`, whose coerced string form is `"0"`, yet the occurrence is replaced by
the empty string. -/
theorem claim_C2_counterexample :
    isNullish (JSVal.vNum 0) = false
    ∧ List.lookup "v" ([("v", JSVal.vNum 0)] : Item) = some (JSVal.vNum 0)
    ∧ jsToString (JSVal.vNum 0) = "0"
    ∧ substJQuery "\x7b\x7bv\x7d\x7d" [("v", JSVal.vNum 0)] 0 = "" := by
  decide

/-- C2 (amended): each placeholder occurrence with a name other than
`index` is replaced independently in a single left-to-right pass, with the
replacement inserted verbatim and never re-scanned; the standalone class
replaces an absent key or nullish value by the empty string and any other
value by its coerced string form, while the jQuery plugin replaces every
falsy value (also `0`, `false`, and the empty string) by the empty
string. -/
theorem claim_C2_substitution_policy (pre w post : List Char) (item : Item)
    (i : Nat) (hpre : ∀ c ∈ pre, c ≠ obr) (hw : w ≠ [])
    (hword : ∀ c ∈ w, isWordChar c = true) (hidx : String.mk w ≠ "index") :
    substChars (replVanilla item i)
        (pre ++ obr :: obr :: (w ++ cbr :: cbr :: post))
      = pre ++ (match List.lookup (String.mk w) item with
          | none => ""
          | some v => if isNullish v then "" else jsToString v).data
        ++ substChars (replVanilla item i) post
    ∧ substChars (replJQuery item i)
        (pre ++ obr :: obr :: (w ++ cbr :: cbr :: post))
      = pre ++ (match List.lookup (String.mk w) item with
          | none => ""
          | some v => if isFalsy v then "" else jsToString v).data
        ++ substChars (replJQuery item i) post := by
  constructor
  · rw [substChars_split _ pre w post hpre hw hword]
    simp only [replVanilla, if_neg hidx]
  · rw [substChars_split _ pre w post hpre hw hword]
    simp only [replJQuery, if_neg hidx]

/-- Witness for C2: a present value is inserted verbatim — a value that
itself holds placeholder syntax is not re-expanded. -/
theorem claim_C2_witness :
    substChars (replVanilla itemC2 0)
        ("x".data ++ obr :: obr :: ("name".data ++ cbr :: cbr :: "!".data))
      = "x".data ++ (match List.lookup (String.mk "name".data) itemC2 with
          | none => ""
          | some v => if isNullish v then "" else jsToString v).data
        ++ substChars (replVanilla itemC2 0) "!".data
    ∧ String.mk (substChars (replVanilla itemC2 0)
        ("x".data ++ obr :: obr :: ("name".data ++ cbr :: cbr :: "!".data)))
      = "x\x7b\x7ba\x7d\x7d!" := by
  refine ⟨(claim_C2_substitution_policy "x".data "name".data "!".data itemC2
    0 (by decide) (by decide) (by decide) (by decide)).1, by decide⟩

/-- C3: every placeholder occurrence named `index` is substituted with the
1-based position `i + 1` in both surfaces' substituters, and the item never
influences it — an item entry named `index` leaves every substitution
unchanged. -/
theorem claim_C3_index_placeholder (pre post l : List Char) (item : Item)
    (i : Nat) (v : JSVal) (hpre : ∀ c ∈ pre, c ≠ obr) :
    substChars (replVanilla item i)
        (pre ++ obr :: obr :: ("index".data ++ cbr :: cbr :: post))
      = pre ++ (Nat.repr (i + 1)).data
        ++ substChars (replVanilla item i) post
    ∧ substChars (replJQuery item i)
        (pre ++ obr :: obr :: ("index".data ++ cbr :: cbr :: post))
      = pre ++ (Nat.repr (i + 1)).data
        ++ substChars (replJQuery item i) post
    ∧ substChars (replVanilla (("index", v) :: item) i) l
      = substChars (replVanilla item i) l := by
  refine ⟨?_, ?_, ?_⟩
  · rw [substChars_split _ pre _ post hpre (by decide) (by decide)]
    simp [replVanilla]
  · rw [substChars_split _ pre _ post hpre (by decide) (by decide)]
    simp [replJQuery]
  · apply substChars_congr
    intro w
    by_cases hw : String.mk w = "index"
    · simp [replVanilla, hw]
    · have hb : (String.mk w == "index") = false := beq_eq_false_iff_ne.mpr hw
      simp only [replVanilla, if_neg hw, List.lookup_cons, hb]

/-- Witness for C3 at position 4 on an item that carries its own `index`
entry: the occurrence still renders `5`. -/
theorem claim_C3_witness :
    substChars (replVanilla itemC3 4)
        ("No.".data ++ obr :: obr :: ("index".data ++ cbr :: cbr :: []))
      = "No.".data ++ (Nat.repr 5).data
        ++ substChars (replVanilla itemC3 4) []
    ∧ String.mk (substChars (replVanilla itemC3 4)
        ("No.".data ++ obr :: obr :: ("index".data ++ cbr :: cbr :: [])))
      = "No.5" := by
  refine ⟨(claim_C3_index_placeholder "No.".data [] [] itemC3 4 JSVal.vNull
    (by decide)).1, by decide⟩

/-- C4 counterexample: on the item ``v: 0`` the two surfaces' default
substituters produce different markup for the same template and index, so
the surfaces are not equivalent. -/
theorem claim_C4_counterexample :
    substVanilla "\x7b\x7bv\x7d\x7d" [("v", JSVal.vNum 0)] 0 = "0"
    ∧ substJQuery "\x7b\x7bv\x7d\x7d" [("v", JSVal.vNum 0)] 0 = ""
    ∧ substVanilla "\x7b\x7bv\x7d\x7d" [("v", JSVal.vNum 0)] 0
      ≠ substJQuery "\x7b\x7bv\x7d\x7d" [("v", JSVal.vNum 0)] 0 := by
  decide

/-- C4 (amended): the surfaces share the render core, but their default
substituters agree only on items none of whose values is falsy without
being nullish; for every such item, template and index they produce the
same markup string.  (Their validation policies differ too: the class
throws where the plugin logs and skips — see the C5 theorems.) -/
theorem claim_C4_surfaces_agree (item : Item)
    (h : ∀ kv ∈ item, isFalsy kv.2 = true → isNullish kv.2 = true)
    (tmpl : String) (i : Nat) :
    substVanilla tmpl item i = substJQuery tmpl item i := by
  unfold substVanilla substJQuery
  congr 1
  apply substChars_congr
  intro w
  unfold replVanilla replJQuery
  by_cases hw : String.mk w = "index"
  · simp [hw]
  · simp only [if_neg hw]
    rcases hl : List.lookup (String.mk w) item with _ | v
    · rfl
    · have hv := h _ (mem_of_lookup hl)
      cases hn : isNullish v with
      | true =>
        have hf : isFalsy v = true := by
          cases v <;> simp_all [isNullish, isFalsy]
        simp [hn, hf]
      | false =>
        cases hf : isFalsy v with
        | true => rw [hv hf] at hn; simp at hn
        | false => simp [hn, hf]

/-- Witness for C4 on an item with a nullish value: both substituters give
the same rendered string. -/
theorem claim_C4_witness :
    substVanilla "\x7b\x7ba\x7d\x7d-\x7b\x7bb\x7d\x7d-\x7b\x7bindex\x7d\x7d"
        itemC4 1
      = substJQuery "\x7b\x7ba\x7d\x7d-\x7b\x7bb\x7d\x7d-\x7b\x7bindex\x7d\x7d"
        itemC4 1
    ∧ substVanilla "\x7b\x7ba\x7d\x7d-\x7b\x7bb\x7d\x7d-\x7b\x7bindex\x7d\x7d"
        itemC4 1 = "x--2" := by
  refine ⟨claim_C4_surfaces_agree itemC4 (by decide) _ 1, by decide⟩

/-- C5 counterexample: with validation enabled and a non-array `data`, the
standalone class's construction throws `Data must be an array!` — an
exception escapes the call boundary instead of a silent skip. -/
theorem claim_C5_counterexample :
    FastLoop.init cfgC5 parseSimple stC5 1
      = Except.error "Data must be an array!" := by
  rfl

/-- C5 (amended): with validation enabled and a non-array `data`, the
jQuery plugin reports `InvalidData` via `console.error` and skips the
render — no container mutation and no exception; the standalone class
instead throws the error out of construction (also without mutating the
container). -/
theorem claim_C5_invalid_data_policy (cfg : FullConfig)
    (parse : String → Option String) (st : RenderState) (fuel : Nat)
    (hv : cfg.validateData = true) (hd : cfg.data = none) :
    loopHtml cfg parse st fuel
      = PluginResult.skipped st "Data must be an array!"
    ∧ FastLoop.init cfg parse st fuel
      = Except.error "Data must be an array!" := by
  constructor
  · unfold loopHtml
    rw [if_pos (by simp [hv, hd])]
  · unfold FastLoop.init
    rw [if_pos (by simp [hv, hd])]

/-- Witness for C5: the plugin skips with the container untouched. -/
theorem claim_C5_witness :
    loopHtml cfgC5 parseSimple stC5 1
      = PluginResult.skipped stC5 "Data must be an array!"
    ∧ stC5.container = [2] := by
  refine ⟨(claim_C5_invalid_data_policy cfgC5 parseSimple stC5 1 rfl rfl).1,
    by decide⟩

/-- C6 counterexample: with node recycling enabled (the default), a
callback throwing on the second item of the first batch is caught, yet the
container does not retain its pre-render contents — the node recycled for
item 0 was moved into the discarded fragment and its markup overwritten. -/
theorem claim_C6_counterexample :
    render cfgC6cx substVanilla parseSimple "t" stC6 [[], []] 3
      = Outcome.caughtErr
          ⟨[7], [(5, "<p>x</p>"), (5, "old5"), (7, "old7")], 10⟩ "boom"
    ∧ (render cfgC6cx substVanilla parseSimple "t" stC6
        [[], []] 3).state.container ≠ stC6.container := by
  decide

/-- C6 (amended): an error thrown synchronously in the first batch is
caught at the render boundary (a later-batch continuation never yields a
caught error) and no swap occurs; with node recycling disabled the
container keeps exactly its pre-render children and their contents, while
with recycling enabled nodes already recycled before the throw have left
the container. -/
theorem claim_C6_first_batch_error (cfg : Config)
    (subst : String → Item → Nat → String) (parse : String → Option String)
    (tmpl : String) (st : RenderState) (data : List Item) (fuel : Nat)
    (st2 : RenderState) (e : String) (hre : cfg.reuseNodes = false)
    (hwf : ∀ n ∈ st.container, n < st.nextId)
    (h : render cfg subst parse tmpl st data fuel = Outcome.caughtErr st2 e) :
    st2.container = st.container
    ∧ ∀ n ∈ st.container,
        List.lookup n st2.content = List.lookup n st.content := by
  unfold render at h
  by_cases ht : tmpl = ""
  · rw [if_pos ht] at h; exact absurd h (by simp)
  · rw [if_neg ht] at h
    cases fuel with
    | zero => exact absurd h (by simp [processBatch])
    | succ fuel =>
      simp only [processBatch] at h
      split at h
      case _ sess2 e2 heq =>
        simp only [if_true, Outcome.caughtErr.injEq] at h
        obtain ⟨h1, h2⟩ := h
        rcases renderItems_no_reuse cfg subst parse tmpl data hre
          (List.range' 0 (min (0 + cfg.batchSize) data.length - 0))
          ⟨st, [], if cfg.reuseNodes then st.container else []⟩ with
          ⟨hc, hn, hl⟩
        rw [heq] at hc hn hl
        dsimp only at hc hn hl
        refine ⟨by rw [← h1]; exact hc, fun n hnmem => ?_⟩
        rw [← h1]
        exact hl n (hwf n hnmem)
      case _ sess2 heq =>
        split at h
        · exact absurd h (processBatch_not_first_ne_caught cfg subst parse
            tmpl data fuel _ sess2 st2 e)
        · exact absurd h (by simp)

/-- Witness for C6: a callback throwing on the very first item with
recycling disabled leaves the container exactly as it was. -/
theorem claim_C6_witness :
    render cfgC6w substVanilla parseSimple "t" stC6w [[]] 2
      = Outcome.caughtErr stC6w "boom"
    ∧ stC6w.container = stC6w.container := by
  have h := claim_C6_first_batch_error cfgC6w substVanilla parseSimple "t"
    stC6w [[]] 2 stC6w "boom" rfl (by decide) (by decide)
  exact ⟨by decide, h.1⟩

/-- C7 counterexample: the first item's markup `plain text` parses to no
element, and instead of skipping the slot and rendering the remaining item,
the render is aborted by the caught `appendChild` TypeError — it does not
complete. -/
theorem claim_C7_counterexample :
    render cfgC7 substVanilla parseSimple "plain text" stC7 [[], []] 3
      = Outcome.caughtErr stC7
          "TypeError: appendChild parameter is not a Node"
    ∧ (render cfgC7 substVanilla parseSimple "plain text" stC7
        [[], []] 3).isDone = false := by
  decide

/-- C7 (amended): when the first item's substituted markup parses to no
element, `fragment.appendChild(null)` throws a TypeError; in the first
batch the error is caught at the render boundary and the whole render is
aborted with no swap and no container mutation — the remaining items are
not rendered, rather than the slot being skipped. -/
theorem claim_C7_parse_failure_aborts (cfg : Config)
    (subst : String → Item → Nat → String) (parse : String → Option String)
    (tmpl : String) (st : RenderState) (it : Item) (rest : List Item)
    (fuel : Nat) (hre : cfg.reuseNodes = false)
    (hcb : cfg.renderCallback = none) (ht : tmpl ≠ "")
    (hb : 1 ≤ cfg.batchSize) (hf : 1 ≤ fuel)
    (hp : parse (jsTrim (subst tmpl it 0)) = none) :
    render cfg subst parse tmpl st (it :: rest) fuel
      = Outcome.caughtErr st
          "TypeError: appendChild parameter is not a Node" := by
  unfold render
  rw [if_neg ht, hre]
  obtain ⟨fuel, rfl⟩ : ∃ f, fuel = f + 1 := ⟨fuel - 1, by omega⟩
  simp only [processBatch]
  obtain ⟨m, hm⟩ :
      ∃ m, min (0 + cfg.batchSize) (it :: rest).length - 0 = m + 1 := by
    refine ⟨min (0 + cfg.batchSize) (it :: rest).length - 1, ?_⟩
    simp only [List.length_cons]
    omega
  rw [hm, List.range'_succ]
  simp [renderItems, genHtml, hcb, materialize, hp, hre]

/-- Witness for C7: the render of a two-batch-capable call aborts on a
template with no element root. -/
theorem claim_C7_witness :
    render cfgC7 substVanilla parseSimple "no element" stC7
        [[("k", JSVal.vStr "v")]] 2
      = Outcome.caughtErr stC7
          "TypeError: appendChild parameter is not a Node" :=
  claim_C7_parse_failure_aborts cfgC7 substVanilla parseSimple "no element"
    stC7 [("k", JSVal.vStr "v")] [] 2 rfl rfl (by decide) (by decide)
    (by decide) (by decide)

/-- C8: with `reuseNodes` enabled, no custom callback and new data of
length `N` shorter than the `M` captured children, the render completes;
afterwards the container holds exactly the first `N` previously existing
nodes at the same positions (identities preserved, so the trailing `M - N`
captured nodes are removed from the document), each reused in place with
its markup overwritten by the new trimmed substitution, and no new node id
is allocated. -/
theorem claim_C8_reuse_shorter (cfg : Config)
    (subst : String → Item → Nat → String) (parse : String → Option String)
    (tmpl : String) (st : RenderState) (data : List Item) (fuel : Nat)
    (hre : cfg.reuseNodes = true) (hcb : cfg.renderCallback = none)
    (ht : tmpl ≠ "") (hb : 1 ≤ cfg.batchSize)
    (hN : data.length < st.container.length) (hnd : st.container.Nodup)
    (hfuel : data.length < fuel) :
    (render cfg subst parse tmpl st data fuel).isDone = true
    ∧ (render cfg subst parse tmpl st data fuel).state.container
      = st.container.take data.length
    ∧ (render cfg subst parse tmpl st data fuel).state.nextId = st.nextId
    ∧ ∀ i, i < data.length →
        List.lookup (st.container.getD i 0)
          (render cfg subst parse tmpl st data fuel).state.content
        = some (jsTrim (subst tmpl (data.getD i []) i)) := by
  have key := processBatch_reuse cfg subst parse tmpl data st.container
    st.nextId hre hcb hb (by omega) fuel 0 st.content true (by omega)
    (by omega)
  have hrender : render cfg subst parse tmpl st data fuel
      = Outcome.done ⟨st.container.take data.length,
          contSeg subst tmpl data st.container 0 data.length st.content,
          st.nextId⟩ := by
    unfold render
    rw [if_neg ht, hre]
    calc processBatch cfg subst parse tmpl data fuel 0 true
          ⟨st, [], if true = true then st.container else []⟩
        = processBatch cfg subst parse tmpl data fuel 0 true
          ⟨⟨st.container.drop 0, st.content, st.nextId⟩,
           st.container.take 0, st.container⟩ := rfl
      _ = Outcome.done ⟨st.container.take data.length,
            contSeg subst tmpl data st.container 0 (data.length - 0)
              st.content, st.nextId⟩ := key
      _ = Outcome.done ⟨st.container.take data.length,
            contSeg subst tmpl data st.container 0 data.length st.content,
            st.nextId⟩ := by rw [Nat.sub_zero]
  refine ⟨by rw [hrender]; rfl, by rw [hrender]; rfl, by rw [hrender]; rfl,
    fun i hi => ?_⟩
  rw [hrender]
  exact contSeg_lookup_hit subst tmpl data st.container hnd data.length 0
    st.content i (by omega) (by omega) (by omega)

/-- Witness for C8: re-rendering three captured nodes with two items keeps
nodes `10` and `20` in place with new markup and removes node `30`. -/
theorem claim_C8_witness :
    (render cfgC8 substVanilla parseSimple "<b>\x7b\x7bname\x7d\x7d</b>"
      stC8 dataC8 3).isDone = true
    ∧ (render cfgC8 substVanilla parseSimple "<b>\x7b\x7bname\x7d\x7d</b>"
        stC8 dataC8 3).state.container = [10, 20]
    ∧ (render cfgC8 substVanilla parseSimple "<b>\x7b\x7bname\x7d\x7d</b>"
        stC8 dataC8 3).state.nextId = 50
    ∧ List.lookup 10 (render cfgC8 substVanilla parseSimple
        "<b>\x7b\x7bname\x7d\x7d</b>" stC8 dataC8 3).state.content
      = some "<b>X</b>"
    ∧ List.lookup 20 (render cfgC8 substVanilla parseSimple
        "<b>\x7b\x7bname\x7d\x7d</b>" stC8 dataC8 3).state.content
      = some "<b>Y</b>" := by
  have h := claim_C8_reuse_shorter cfgC8 substVanilla parseSimple
    "<b>\x7b\x7bname\x7d\x7d</b>" stC8 dataC8 3 rfl rfl (by decide)
    (by decide) (by decide) (by decide) (by decide)
  refine ⟨h.1, h.2.1.trans (by decide), h.2.2.1,
    (h.2.2.2 0 (by decide)).trans (by decide),
    (h.2.2.2 1 (by decide)).trans (by decide)⟩

/-- C9: with `batchSize ≥ 1` every render terminates — a data array of
length `N` is processed in exactly `⌈N / batchSize⌉` chunk invocations,
except that `N = 0` takes one single invocation processing zero items. -/
theorem claim_C9_batch_count (len b : Nat) (hb : 1 ≤ b) :
    processBatchCount len b (len + 1) 0
      = if len = 0 then 1 else (len + b - 1) / b := by
  by_cases h0 : len = 0
  · subst h0
    simp [processBatchCount]
  · rw [if_neg h0,
      processBatchCount_spec len b hb (len + 1) 0 (by omega) (by omega)]
    congr 1

/-- Witness for C9: five items at `batchSize` 2 take three chunk
invocations. -/
theorem claim_C9_witness : 1 ≤ 2 ∧ processBatchCount 5 2 6 0 = 3 :=
  ⟨by decide, (claim_C9_batch_count 5 2 (by decide)).trans (by decide)⟩

/-- C10: an empty extracted template makes `render` and `updateData`
complete no-ops that raise no error — the container is untouched, also at
the construction-time initial render of both surfaces, so the configured
data is never rendered. -/
theorem claim_C10_empty_template_noop (cfg : FullConfig)
    (parse : String → Option String) (st : RenderState) (fuel : Nat)
    (data l : List Item) :
    render cfg.toConfig substVanilla parse "" st data fuel = Outcome.noop st
    ∧ updateData cfg.toConfig substVanilla parse "" st data fuel
      = Outcome.noop st
    ∧ renderNonArray "" st = Outcome.noop st
    ∧ (extractTemplate cfg.template = Except.ok "" → cfg.data = some l →
        FastLoop.init cfg parse st fuel = Except.ok (Outcome.noop st))
    ∧ (extractTemplate cfg.template = Except.ok "" → cfg.data = some l →
        loopHtml cfg parse st fuel
          = PluginResult.rendered (Outcome.noop st)) := by
  refine ⟨by simp [render], by simp [updateData, render],
    by simp [renderNonArray], ?_, ?_⟩
  · intro he hd
    simp [FastLoop.init, hd, he, render]
  · intro he hd
    simp [loopHtml, hd, he, render]

/-- Witness for C10: constructing either surface with `template: ''` leaves
the container unchanged and renders nothing. -/
theorem claim_C10_witness :
    FastLoop.init cfgC10 parseSimple stC6 2 = Except.ok (Outcome.noop stC6)
    ∧ loopHtml cfgC10 parseSimple stC6 2
      = PluginResult.rendered (Outcome.noop stC6) := by
  have h := claim_C10_empty_template_noop cfgC10 parseSimple stC6 2 []
    [[("name", JSVal.vStr "A")]]
  exact ⟨h.2.2.2.1 rfl rfl, h.2.2.2.2 rfl rfl⟩

end FastLoopModel
